import Mathlib

/-!
Shallow embedding of `src/tooling/cli.rs/src/build.rs` (the tauri CLI build
pipeline, `Build::run`).  External collaborators (config loader, shell
execution, compiler, app-settings resolver, filesystem, bundler engine,
updater signer) are modelled by an `Env` record of their observable outcomes;
`run` mirrors the control flow of `Build::run` and additionally produces a
trace of observable events (lock acquisition/release, spawned processes,
renames, bundler and signer invocations, printed reports).
-/

namespace TauriBuild

/-- Target platform family, corresponding to the `cfg(windows)` /
`cfg(target_os = "windows")` conditional compilation in `build.rs`. -/
inductive Platform
  | windows
  | other
deriving DecidableEq, Repr

/-- Target architecture, corresponding to `cfg!(target_arch = "x86")` in
the merge-module staging code. -/
inductive Arch
  | x86
  | x64
deriving DecidableEq, Repr

/-- Modelled from the spec: the closed enumeration of bundle package types
lives in the external `tauri_bundler` crate (not under `src/`); the spec
names the short-name enumeration "deb", "msi", "app", "updater" (plus the
sentinel "none", which `build.rs` handles itself before the lookup). -/
inductive PackageType
  | deb
  | msi
  | app
  | updater
deriving DecidableEq, Repr

/-- Modelled from the spec: `PackageType::from_short_name`, the closed
short-name lookup of the external bundler crate; unrecognized names map to
`none`. -/
def PackageType.fromShortName : String → Option PackageType
  | "deb" => some .deb
  | "msi" => some .msi
  | "app" => some .app
  | "updater" => some .updater
  | _ => none

/-- A bundle produced by the bundler engine: package type plus the produced
artifact paths (`bundle.package_type`, `bundle.bundle_paths`). -/
structure BundleDescriptor where
  packageType : PackageType
  bundlePaths : List String
deriving DecidableEq, Repr

/-- The `Build` request struct of `build.rs` (the builder-configured
pipeline controller). -/
structure Build where
  runner : Option String
  debug : Bool
  verbose : Bool
  target : Option String
  bundles : Option (List String)
  config : Option String
deriving DecidableEq, Repr

/-- Mirrors `Build::new()` / `Default::default()`. -/
def Build.new : Build :=
  { runner := none, debug := false, verbose := false, target := none,
    bundles := none, config := none }

/-- The `build` section of the configuration (`config_.build`). -/
structure BuildConfig where
  distDir : String
  runner : Option String
  beforeBuildCommand : Option String
deriving DecidableEq, Repr

/-- The `package` section of the configuration (`config_.package`). -/
structure PackageConfig where
  productName : Option String
deriving DecidableEq, Repr

/-- Mirrors `config_.tauri.bundle`. -/
structure BundleConfig where
  active : Bool
deriving DecidableEq, Repr

/-- Mirrors `config_.tauri.updater`. -/
structure UpdaterConfig where
  active : Bool
  pubkey : Option String
deriving DecidableEq, Repr

/-- Mirrors `config_.tauri`. -/
structure TauriConfig where
  bundle : BundleConfig
  updater : UpdaterConfig
deriving DecidableEq, Repr

/-- The configuration snapshot read under the lock guard in `Build::run`. -/
structure Config where
  build : BuildConfig
  package : PackageConfig
  tauri : TauriConfig
deriving DecidableEq, Repr

/-- Outcomes of the external collaborators consumed by `Build::run`:
each field records what the corresponding external call would report. -/
structure Env where
  platform : Platform
  arch : Arch
  /-- Whether `get_config` succeeds. -/
  configLoadOk : Bool
  /-- Whether `set_current_dir(tauri_dir())` succeeds. -/
  workingDirOk : Bool
  /-- Whether `rewrite_manifest` succeeds. -/
  manifestOk : Bool
  /-- Result of `app_dir()`, the working directory handed to the before-build hook. -/
  appDir : String
  /-- exit status of `execute_with_output` for a given hook command:
  `true` means exit code zero. -/
  hookExitOk : String → Bool
  /-- Result of `PathBuf::from(dist_dir).exists()`. -/
  distDirExists : String → Bool
  /-- Whether `rust::build_project` succeeds. -/
  compileOk : Bool
  /-- Whether `rust::AppSettings::new` and `get_out_dir` succeed. -/
  appSettingsOk : Bool
  /-- Result of `app_settings.get_out_dir(..)`. -/
  outDir : String
  /-- Result of `app_settings.cargo_package_settings().name`, the default binary name. -/
  binName : String
  /-- Whether `fs::rename(src, dst)` succeeds. -/
  renameOk : String → String → Bool
  /-- Whether the `std::fs::write` of the merge module succeeds (Windows only). -/
  mergeWriteOk : Bool
  /-- Whether `get_bundle_settings` / `get_binaries` succeed. -/
  bundleSettingsOk : Bool
  /-- Whether `settings_builder.build()` succeeds. -/
  settingsBuildOk : Bool
  /-- Whether `bundle_project` succeeds. -/
  bundleOk : Bool
  /-- the bundles returned by a successful `bundle_project`. -/
  producedBundles : List BundleDescriptor
  /-- Result of `sign_file_from_env_variables path`: `some sigPath` on success,
  `none` on failure. -/
  signResult : String → Option String

/-- Errors of the pipeline, one constructor per distinct failure site of
`Build::run` (names follow the spec's taxonomy where it has one). -/
inductive BuildError
  | configLoadError
  | workingDirectoryError
  | manifestRewriteError
  | preBuildHookError (cmd : String)
  | missingWebAssetsError (distDir : String)
  | compileError
  | appSettingsError
  | renameError
  | mergeModuleError
  | bundleSettingsError
  | unsupportedBundleFormatError (name : String)
  | settingsBuildError
  | bundleError
  | signingError
deriving DecidableEq, Repr

/-- Observable events of one pipeline run, in order. -/
inductive Event
  | lockAcquired
  | lockReleased
  | hookSpawned (shell : String) (flag : String) (cmd : String) (cwd : String)
  | compilerInvoked (runner : String) (target : Option String) (debug : Bool)
  | renameInvoked (src : String) (dst : String)
  | mergeModuleRemoved (filename : String)
  | mergeModuleWritten (filename : String)
  | bundlerInvoked (packageTypes : Option (List PackageType))
  | signerInvoked (path : String)
  | reportPrinted (paths : List String)
deriving DecidableEq, Repr

/-- Coarse classification of events, for counting. -/
inductive EKind
  | lockA
  | lockR
  | hook
  | compiler
  | rename
  | mergeRM
  | mergeWR
  | bundler
  | signer
  | report
deriving DecidableEq, Repr

def Event.kind : Event → EKind
  | .lockAcquired => .lockA
  | .lockReleased => .lockR
  | .hookSpawned _ _ _ _ => .hook
  | .compilerInvoked _ _ _ => .compiler
  | .renameInvoked _ _ => .rename
  | .mergeModuleRemoved _ => .mergeRM
  | .mergeModuleWritten _ => .mergeWR
  | .bundlerInvoked _ => .bundler
  | .signerInvoked _ => .signer
  | .reportPrinted _ => .report

/-- Number of events of a given kind in a trace. -/
def countKind (k : EKind) : List Event → Nat
  | [] => 0
  | e :: tr => (if e.kind = k then 1 else 0) + countKind k tr

/-- Number of signer invocations for one specific artifact path. -/
def countPath (p : String) : List Event → Nat
  | [] => 0
  | e :: tr => (if e = Event.signerInvoked p then 1 else 0) + countPath p tr

/-- Number of occurrences of a string in a list. -/
def countStr (p : String) : List String → Nat
  | [] => 0
  | q :: l => (if q = p then 1 else 0) + countStr p l

/-- The shell invocation of the before-build hook:
`cmd /C` on Windows, `sh -c` elsewhere, run in `app_dir()`. -/
def shellEvent : Platform → String → String → Event
  | .windows, c, d => .hookSpawned "cmd" "/C" c d
  | .other, c, d => .hookSpawned "sh" "-c" c d

/-- The before-build hook step (`build.rs` lines 78–98): absent or empty
command is a no-op; a non-empty command spawns the platform shell and a
non-zero exit fails with `preBuildHookError` carrying the command. -/
def hookStep (cfg : Config) (env : Env) : Except BuildError Unit × List Event :=
  match cfg.build.beforeBuildCommand with
  | none => (.ok (), [])
  | some c =>
    if c.isEmpty then (.ok (), [])
    else if env.hookExitOk c then (.ok (), [shellEvent env.platform c env.appDir])
    else (.error (.preBuildHookError c), [shellEvent env.platform c env.appDir])

/-- Whether `hookStep` did not fail. -/
def hookOk (cfg : Config) (env : Env) : Bool :=
  match cfg.build.beforeBuildCommand with
  | none => true
  | some c => if c.isEmpty then true else env.hookExitOk c

/-- Runner resolution (`build.rs` lines 108–112):
`self.runner.or(runner_from_config).unwrap_or("cargo")`. -/
def resolveRunner (b : Build) (cfg : Config) : String :=
  (b.runner.or cfg.build.runner).getD "cargo"

/-- Source and destination of the product-name rename, following the
platform binary naming convention (`.exe` on Windows). -/
def renameSrcDst (env : Env) (productName : String) : String × String :=
  match env.platform with
  | .windows =>
    (env.outDir ++ "/" ++ env.binName ++ ".exe",
     env.outDir ++ "/" ++ productName ++ ".exe")
  | .other =>
    (env.outDir ++ "/" ++ env.binName, env.outDir ++ "/" ++ productName)

/-- Rename events (`build.rs` lines 121–130): a rename is attempted
exactly when a product name is configured. -/
def renameEvents (cfg : Config) (env : Env) : List Event :=
  match cfg.package.productName with
  | none => []
  | some pn => [.renameInvoked (renameSrcDst env pn).1 (renameSrcDst env pn).2]

/-- Whether the attempted rename (if any) succeeded. -/
def renameOkB (cfg : Config) (env : Env) : Bool :=
  match cfg.package.productName with
  | none => true
  | some pn => env.renameOk (renameSrcDst env pn).1 (renameSrcDst env pn).2

/-- Windows merge-module staging (`build.rs` lines 134–150): remove the
stale architecture's resource, write the matching one. No-op elsewhere. -/
def mergeModuleEvents (env : Env) : List Event :=
  match env.platform with
  | .other => []
  | .windows =>
    match env.arch with
    | .x86 =>
      [.mergeModuleRemoved "Microsoft_VC142_CRT_x64.msm",
       .mergeModuleWritten "Microsoft_VC142_CRT_x86.msm"]
    | .x64 =>
      [.mergeModuleRemoved "Microsoft_VC142_CRT_x86.msm",
       .mergeModuleWritten "Microsoft_VC142_CRT_x64.msm"]

/-- Whether merge-module staging succeeded (`fs::write` can fail; the
`remove_file` result is discarded by the source). -/
def mergeOkB (env : Env) : Bool :=
  match env.platform with
  | .other => true
  | .windows => env.mergeWriteOk

/-- The requested-format loop of `build.rs` lines 162–178: names are
examined left to right; a `"none"` entry breaks out of the loop keeping
the types collected so far; an unrecognized name fails with
`unsupportedBundleFormatError`. -/
def collectTypes : List String → Except BuildError (List PackageType)
  | [] => .ok []
  | name :: rest =>
    if name = "none" then .ok []
    else
      match PackageType.fromShortName name with
      | some t => (collectTypes rest).map (t :: ·)
      | none => .error (.unsupportedBundleFormatError name)

/-- The optional package-type restriction (`if let Some(names) = self.bundles`):
`none` means no restriction was requested. -/
def typesStep (b : Build) : Except BuildError (Option (List PackageType)) :=
  match b.bundles with
  | none => .ok none
  | some names => (collectTypes names).map some

/-- The signing loop (`build.rs` lines 193–205) over the flattened list of
updater-bundle artifact paths: each path is handed to the signer; the first
failure aborts the loop (`?`). On success returns the signature paths in
order. -/
def signPaths (env : Env) : List String → Except BuildError (List String) × List Event
  | [] => (.ok [], [])
  | p :: rest =>
    match env.signResult p with
    | none => (.error .signingError, [.signerInvoked p])
    | some sig =>
      ((signPaths env rest).1.map (sig :: ·),
       .signerInvoked p :: (signPaths env rest).2)

/-- The artifact paths of the produced bundles whose package type is the
distinguished `updater` type, in bundle order
(`bundles.iter().filter(..== Updater)` then `bundle_paths.iter()`). -/
def updaterPaths (bs : List BundleDescriptor) : List String :=
  (bs.filter (fun bd => bd.packageType = PackageType.updater)).flatMap
    (fun bd => bd.bundlePaths)

/-- The bundling-active block of `Build::run` (`build.rs` lines 132–210):
merge-module staging, settings assembly, the requested-format restriction,
bundler invocation, then conditional updater signing and reporting. -/
def bundleStage (b : Build) (cfg : Config) (env : Env) :
    Except BuildError Unit × List Event :=
  if cfg.tauri.bundle.active = false then (.ok (), [])
  else if mergeOkB env = false then
    (.error .mergeModuleError, mergeModuleEvents env)
  else if env.bundleSettingsOk = false then
    (.error .bundleSettingsError, mergeModuleEvents env)
  else
    match typesStep b with
    | .error e => (.error e, mergeModuleEvents env)
    | .ok typesOpt =>
      if env.settingsBuildOk = false then
        (.error .settingsBuildError, mergeModuleEvents env)
      else if env.bundleOk = false then
        (.error .bundleError, mergeModuleEvents env ++ [Event.bundlerInvoked typesOpt])
      else if cfg.tauri.updater.active && cfg.tauri.updater.pubkey.isSome then
        match (signPaths env (updaterPaths env.producedBundles)).1 with
        | .error e =>
          (.error e,
           mergeModuleEvents env ++ Event.bundlerInvoked typesOpt ::
             (signPaths env (updaterPaths env.producedBundles)).2)
        | .ok sigs =>
          if sigs.isEmpty then
            (.ok (),
             mergeModuleEvents env ++ Event.bundlerInvoked typesOpt ::
               (signPaths env (updaterPaths env.producedBundles)).2)
          else
            (.ok (),
             mergeModuleEvents env ++ Event.bundlerInvoked typesOpt ::
               ((signPaths env (updaterPaths env.producedBundles)).2 ++
                 [Event.reportPrinted sigs]))
      else (.ok (), mergeModuleEvents env ++ [Event.bundlerInvoked typesOpt])

/-- The part of `Build::run` executed while the configuration lock guard is
held (`build.rs` lines 78 to 210): hook, web-asset check, compile,
app-settings resolution, rename, bundling. The trace excludes the lock
events themselves. -/
def runLocked (b : Build) (cfg : Config) (env : Env) :
    Except BuildError Unit × List Event :=
  match (hookStep cfg env).1 with
  | .error e => (.error e, (hookStep cfg env).2)
  | .ok _ =>
    if env.distDirExists cfg.build.distDir = false then
      (.error (.missingWebAssetsError cfg.build.distDir), (hookStep cfg env).2)
    else if env.compileOk = false then
      (.error .compileError,
       (hookStep cfg env).2 ++
         [Event.compilerInvoked (resolveRunner b cfg) b.target b.debug])
    else if env.appSettingsOk = false then
      (.error .appSettingsError,
       (hookStep cfg env).2 ++
         [Event.compilerInvoked (resolveRunner b cfg) b.target b.debug])
    else if renameOkB cfg env = false then
      (.error .renameError,
       (hookStep cfg env).2 ++
         Event.compilerInvoked (resolveRunner b cfg) b.target b.debug ::
           renameEvents cfg env)
    else
      ((bundleStage b cfg env).1,
       (hookStep cfg env).2 ++
         Event.compilerInvoked (resolveRunner b cfg) b.target b.debug ::
           (renameEvents cfg env ++ (bundleStage b cfg env).2))

/-- Mirrors `Build::run` (`build.rs` lines 66–213): config load, working-directory
change, manifest rewrite, then the lock guard is acquired (`build.rs` line
75) and — matching the source, where `config_guard` lives to the end of the
function — released only when `run` returns. -/
def run (b : Build) (cfg : Config) (env : Env) :
    Except BuildError Unit × List Event :=
  if env.configLoadOk = false then (.error .configLoadError, [])
  else if env.workingDirOk = false then (.error .workingDirectoryError, [])
  else if env.manifestOk = false then (.error .manifestRewriteError, [])
  else
    ((runLocked b cfg env).1,
     Event.lockAcquired :: (runLocked b cfg env).2 ++ [Event.lockReleased])

/-- Events emitted while the configuration lock is held, replaying a trace
with a held-flag accumulator. -/
def lockedEvents : List Event → Bool → List Event
  | [], _ => []
  | e :: rest, held =>
    match e with
    | .lockAcquired => lockedEvents rest true
    | .lockReleased => lockedEvents rest false
    | _ => if held then e :: lockedEvents rest held else lockedEvents rest held

/-! ### Concrete example inputs used by witnesses and counterexamples -/

/-- A configuration with bundling and updater signing fully enabled and a
non-empty before-build command. -/
def cfgA : Config :=
  { build := { distDir := "dist", runner := none,
               beforeBuildCommand := some "npm run build" },
    package := { productName := some "app" },
    tauri := { bundle := { active := true },
               updater := { active := true, pubkey := some "PUBKEY" } } }

/-- An environment in which every external collaborator succeeds; the
bundler produces one updater bundle and one deb bundle. -/
def envA : Env :=
  { platform := .other, arch := .x64, configLoadOk := true,
    workingDirOk := true, manifestOk := true, appDir := "appdir",
    hookExitOk := fun _ => true, distDirExists := fun _ => true,
    compileOk := true, appSettingsOk := true, outDir := "out",
    binName := "app", renameOk := fun _ _ => true, mergeWriteOk := true,
    bundleSettingsOk := true, settingsBuildOk := true, bundleOk := true,
    producedBundles := [⟨.updater, ["bundle.tar.gz"]⟩, ⟨.deb, ["bundle.deb"]⟩],
    signResult := fun p => some (p ++ ".sig") }

/-! ### Counting lemmas -/

theorem countKind_append (k : EKind) (l1 l2 : List Event) :
    countKind k (l1 ++ l2) = countKind k l1 + countKind k l2 := by
  induction l1 with
  | nil => simp [countKind]
  | cons e tl ih => simp [countKind, ih, Nat.add_assoc]

theorem countPath_append (p : String) (l1 l2 : List Event) :
    countPath p (l1 ++ l2) = countPath p l1 + countPath p l2 := by
  induction l1 with
  | nil => simp [countPath]
  | cons e tl ih => simp [countPath, ih, Nat.add_assoc]

theorem countStr_append (p : String) (l1 l2 : List String) :
    countStr p (l1 ++ l2) = countStr p l1 + countStr p l2 := by
  induction l1 with
  | nil => simp [countStr]
  | cons q tl ih => simp [countStr, ih, Nat.add_assoc]

theorem countKind_eq_zero {k : EKind} {l : List Event}
    (h : ∀ e ∈ l, e.kind ≠ k) : countKind k l = 0 := by
  induction l with
  | nil => rfl
  | cons e tl ih =>
    have he : e.kind ≠ k := h e (List.mem_cons_self e tl)
    have htl : ∀ e' ∈ tl, e'.kind ≠ k := fun e' hm => h e' (List.mem_cons_of_mem e hm)
    simp [countKind, he, ih htl]

theorem countPath_zero_of_no_signer {p : String} {l : List Event}
    (h : ∀ e ∈ l, e.kind ≠ EKind.signer) : countPath p l = 0 := by
  induction l with
  | nil => rfl
  | cons e tl ih =>
    have he : e.kind ≠ EKind.signer := h e (List.mem_cons_self e tl)
    have htl : ∀ e' ∈ tl, e'.kind ≠ EKind.signer :=
      fun e' hm => h e' (List.mem_cons_of_mem e hm)
    have hne : e ≠ Event.signerInvoked p := by
      intro hEq; exact he (by rw [hEq]; rfl)
    simp [countPath, hne, ih htl]

theorem countPath_map_signer (p : String) (l : List String) :
    countPath p (l.map Event.signerInvoked) = countStr p l := by
  induction l with
  | nil => rfl
  | cons q tl ih =>
    by_cases h : q = p
    · simp [countPath, countStr, h, ih]
    · simp [countPath, countStr, h, ih, Event.signerInvoked.injEq]

theorem countStr_eq_zero_of_not_mem {p : String} {l : List String}
    (h : p ∉ l) : countStr p l = 0 := by
  induction l with
  | nil => rfl
  | cons q tl ih =>
    have hq : q ≠ p := fun hEq => h (hEq ▸ List.mem_cons_self q tl)
    have htl : p ∉ tl := fun hm => h (List.mem_cons_of_mem q hm)
    simp [countStr, hq, ih htl]

/-! ### Per-stage event classification -/

theorem shellEvent_kind (pf : Platform) (c d : String) :
    (shellEvent pf c d).kind = EKind.hook := by
  cases pf <;> rfl

theorem hookStep_kinds (cfg : Config) (env : Env) :
    ∀ e ∈ (hookStep cfg env).2, e.kind = EKind.hook := by
  intro e he
  unfold hookStep at he
  split at he
  · simp at he
  · split at he
    · simp at he
    · split at he <;>
        (simp only [List.mem_singleton] at he; rw [he]; exact shellEvent_kind ..)

theorem renameEvents_kinds (cfg : Config) (env : Env) :
    ∀ e ∈ renameEvents cfg env, e.kind = EKind.rename := by
  intro e he
  unfold renameEvents at he
  split at he
  · simp at he
  · simp only [List.mem_singleton] at he; rw [he]; rfl

theorem mergeModuleEvents_kinds (env : Env) :
    ∀ e ∈ mergeModuleEvents env,
      e.kind = EKind.mergeRM ∨ e.kind = EKind.mergeWR := by
  intro e he
  unfold mergeModuleEvents at he
  split at he
  · simp at he
  · split at he <;>
      (simp only [List.mem_cons, List.mem_singleton, List.not_mem_nil, or_false] at he;
       rcases he with h | h <;> rw [h] <;> simp [Event.kind])

theorem signPaths_kinds (env : Env) (l : List String) :
    ∀ e ∈ (signPaths env l).2, e.kind = EKind.signer := by
  induction l with
  | nil => intro e he; simp [signPaths] at he
  | cons p rest ih =>
    intro e he
    unfold signPaths at he
    split at he
    · simp only [List.mem_singleton] at he; rw [he]; rfl
    · simp only [List.mem_cons] at he
      rcases he with h | h
      · rw [h]; rfl
      · exact ih e h

theorem bundleStage_kinds (b : Build) (cfg : Config) (env : Env) :
    ∀ e ∈ (bundleStage b cfg env).2,
      e.kind = EKind.mergeRM ∨ e.kind = EKind.mergeWR ∨
      e.kind = EKind.bundler ∨ e.kind = EKind.signer ∨
      e.kind = EKind.report := by
  intro e he
  unfold bundleStage at he
  split at he
  · simp at he
  · split at he
    · rcases mergeModuleEvents_kinds env e he with h | h <;> simp [h]
    · split at he
      · rcases mergeModuleEvents_kinds env e he with h | h <;> simp [h]
      · split at he
        · rcases mergeModuleEvents_kinds env e he with h | h <;> simp [h]
        · split at he
          · rcases mergeModuleEvents_kinds env e he with h | h <;> simp [h]
          · split at he
            · rw [List.mem_append] at he
              rcases he with h | h
              · rcases mergeModuleEvents_kinds env e h with h' | h' <;> simp [h']
              · simp only [List.mem_singleton] at h; rw [h]; simp [Event.kind]
            · split at he
              · split at he
                · rw [List.mem_append, List.mem_cons] at he
                  rcases he with h | h | h
                  · rcases mergeModuleEvents_kinds env e h with h' | h' <;> simp [h']
                  · rw [h]; simp [Event.kind]
                  · have := signPaths_kinds env (updaterPaths env.producedBundles) e h
                    simp [this]
                · split at he
                  · rw [List.mem_append, List.mem_cons] at he
                    rcases he with h | h | h
                    · rcases mergeModuleEvents_kinds env e h with h' | h' <;> simp [h']
                    · rw [h]; simp [Event.kind]
                    · have := signPaths_kinds env (updaterPaths env.producedBundles) e h
                      simp [this]
                  · rw [List.mem_append, List.mem_cons, List.mem_append] at he
                    rcases he with h | h | h | h
                    · rcases mergeModuleEvents_kinds env e h with h' | h' <;> simp [h']
                    · rw [h]; simp [Event.kind]
                    · have := signPaths_kinds env (updaterPaths env.producedBundles) e h
                      simp [this]
                    · simp only [List.mem_singleton] at h; rw [h]; simp [Event.kind]
              · rw [List.mem_append] at he
                rcases he with h | h
                · rcases mergeModuleEvents_kinds env e h with h' | h' <;> simp [h']
                · simp only [List.mem_singleton] at h; rw [h]; simp [Event.kind]

theorem runLocked_kinds (b : Build) (cfg : Config) (env : Env) :
    ∀ e ∈ (runLocked b cfg env).2,
      e.kind ≠ EKind.lockA ∧ e.kind ≠ EKind.lockR := by
  intro e he
  have hH := hookStep_kinds cfg env e
  have hR := renameEvents_kinds cfg env e
  have hB := bundleStage_kinds b cfg env e
  unfold runLocked at he
  split at he
  · have := hH he; simp [this]
  · split at he
    · have := hH he; simp [this]
    · split at he
      · rw [List.mem_append, List.mem_singleton] at he
        rcases he with h | h
        · have := hH h; simp [this]
        · rw [h]; simp [Event.kind]
      · split at he
        · rw [List.mem_append, List.mem_singleton] at he
          rcases he with h | h
          · have := hH h; simp [this]
          · rw [h]; simp [Event.kind]
        · split at he
          · rw [List.mem_append, List.mem_cons] at he
            rcases he with h | h | h
            · have := hH h; simp [this]
            · rw [h]; simp [Event.kind]
            · have := hR h; simp [this]
          · rw [List.mem_append, List.mem_cons, List.mem_append] at he
            rcases he with h | h | h | h
            · have := hH h; simp [this]
            · rw [h]; simp [Event.kind]
            · have := hR h; simp [this]
            · rcases hB h with h' | h' | h' | h' | h' <;> simp [h']

theorem run_trace_shape (b : Build) (cfg : Config) (env : Env) :
    (run b cfg env).2 = [] ∨
    (run b cfg env).2 =
      Event.lockAcquired :: (runLocked b cfg env).2 ++ [Event.lockReleased] := by
  unfold run
  split
  · left; rfl
  · split
    · left; rfl
    · split
      · left; rfl
      · right; rfl

theorem countKind_run_cases (k : EKind) (hA : k ≠ EKind.lockA)
    (hR : k ≠ EKind.lockR) (b : Build) (cfg : Config) (env : Env) :
    countKind k (run b cfg env).2 = 0 ∨
    countKind k (run b cfg env).2 = countKind k (runLocked b cfg env).2 := by
  rcases run_trace_shape b cfg env with h | h
  · left; rw [h]; rfl
  · right
    rw [h]
    simp [countKind, countKind_append, Event.kind, Ne.symm hA, Ne.symm hR]

theorem countKind_runLocked_cases (k : EKind) (b : Build) (cfg : Config)
    (env : Env) (hH : k ≠ EKind.hook) (hC : k ≠ EKind.compiler)
    (hRn : k ≠ EKind.rename) :
    countKind k (runLocked b cfg env).2 = 0 ∨
    countKind k (runLocked b cfg env).2 = countKind k (bundleStage b cfg env).2 := by
  have h1 : countKind k (hookStep cfg env).2 = 0 :=
    countKind_eq_zero (fun e he => by
      rw [hookStep_kinds cfg env e he]; exact Ne.symm hH)
  have h2 : countKind k (renameEvents cfg env) = 0 :=
    countKind_eq_zero (fun e he => by
      rw [renameEvents_kinds cfg env e he]; exact Ne.symm hRn)
  unfold runLocked
  split
  · left; exact h1
  · split
    · left; exact h1
    · split
      · left; simp [countKind_append, h1, countKind, Event.kind, Ne.symm hC]
      · split
        · left; simp [countKind_append, h1, countKind, Event.kind, Ne.symm hC]
        · split
          · left
            simp [countKind_append, h1, h2, countKind, Event.kind, Ne.symm hC]
          · right
            simp [countKind_append, h1, h2, countKind, Event.kind, Ne.symm hC]

/-! ### Gate predicates and reduction lemmas -/

/-- All gates up to and including the rename step pass: every claim about
the bundling phase assumes a pipeline that reached it. -/
def GatesOk (cfg : Config) (env : Env) : Prop :=
  env.configLoadOk = true ∧ env.workingDirOk = true ∧ env.manifestOk = true ∧
  hookOk cfg env = true ∧ env.distDirExists cfg.build.distDir = true ∧
  env.compileOk = true ∧ env.appSettingsOk = true ∧ renameOkB cfg env = true

instance (cfg : Config) (env : Env) : Decidable (GatesOk cfg env) := by
  unfold GatesOk; infer_instance

/-- The bundling-phase gates (merge-module staging, settings assembly,
settings build, bundler engine) all pass. -/
def BundleGatesOk (env : Env) : Prop :=
  mergeOkB env = true ∧ env.bundleSettingsOk = true ∧
  env.settingsBuildOk = true ∧ env.bundleOk = true

instance (env : Env) : Decidable (BundleGatesOk env) := by
  unfold BundleGatesOk; infer_instance

theorem hookStep_fst_of_ok {cfg : Config} {env : Env}
    (h : hookOk cfg env = true) : (hookStep cfg env).1 = Except.ok () := by
  cases hbc : cfg.build.beforeBuildCommand with
  | none => simp [hookStep, hbc]
  | some c =>
    simp only [hookOk, hbc] at h
    cases hie : c.isEmpty with
    | true => simp [hookStep, hbc, hie]
    | false =>
      simp [hie] at h
      simp [hookStep, hbc, hie, h]

theorem hookStep_fst_error {cfg : Config} {env : Env} {e : BuildError}
    (h : (hookStep cfg env).1 = .error e) :
    ∃ c, e = .preBuildHookError c ∧ cfg.build.beforeBuildCommand = some c ∧
      c.isEmpty = false ∧ env.hookExitOk c = false := by
  cases hbc : cfg.build.beforeBuildCommand with
  | none => simp [hookStep, hbc] at h
  | some c =>
    simp only [hookStep, hbc] at h
    cases hie : c.isEmpty with
    | true => simp [hie] at h
    | false =>
      cases hex : env.hookExitOk c with
      | true => simp [hie, hex] at h
      | false =>
        simp [hie, hex] at h
        exact ⟨c, h.symm, rfl, hie, hex⟩

theorem run_eq_of_pre {b : Build} {cfg : Config} {env : Env}
    (h1 : env.configLoadOk = true) (h2 : env.workingDirOk = true)
    (h3 : env.manifestOk = true) :
    run b cfg env =
      ((runLocked b cfg env).1,
       Event.lockAcquired :: (runLocked b cfg env).2 ++ [Event.lockReleased]) := by
  simp [run, h1, h2, h3]

theorem runLocked_eq_of_gates {b : Build} {cfg : Config} {env : Env}
    (h4 : hookOk cfg env = true)
    (h5 : env.distDirExists cfg.build.distDir = true)
    (h6 : env.compileOk = true) (h7 : env.appSettingsOk = true)
    (h8 : renameOkB cfg env = true) :
    runLocked b cfg env =
      ((bundleStage b cfg env).1,
       (hookStep cfg env).2 ++
         Event.compilerInvoked (resolveRunner b cfg) b.target b.debug ::
           (renameEvents cfg env ++ (bundleStage b cfg env).2)) := by
  have hh := hookStep_fst_of_ok h4
  simp [runLocked, hh, h5, h6, h7, h8]

theorem run_eq_of_gates {b : Build} {cfg : Config} {env : Env}
    (h : GatesOk cfg env) :
    run b cfg env =
      ((bundleStage b cfg env).1,
       Event.lockAcquired ::
         ((hookStep cfg env).2 ++
           Event.compilerInvoked (resolveRunner b cfg) b.target b.debug ::
             (renameEvents cfg env ++ (bundleStage b cfg env).2)) ++
         [Event.lockReleased]) := by
  obtain ⟨h1, h2, h3, h4, h5, h6, h7, h8⟩ := h
  rw [run_eq_of_pre h1 h2 h3, runLocked_eq_of_gates h4 h5 h6 h7 h8]

/-! ### Signing-loop lemmas -/

theorem exceptMap_error {α β ε : Type} (f : α → β) (e : ε) :
    Except.map f (Except.error e : Except ε α) =
      (Except.error e : Except ε β) := rfl

theorem exceptMap_ok {α β ε : Type} (f : α → β) (a : α) :
    Except.map f (Except.ok a : Except ε α) =
      (Except.ok (f a) : Except ε β) := rfl

theorem signPaths_all_ok {env : Env} {l : List String}
    (h : ∀ p ∈ l, (env.signResult p).isSome = true) :
    (signPaths env l).2 = l.map Event.signerInvoked ∧
    ∃ sigs, (signPaths env l).1 = Except.ok sigs := by
  induction l with
  | nil => exact ⟨rfl, [], rfl⟩
  | cons p rest ih =>
    have hp := h p (List.mem_cons_self p rest)
    cases hs : env.signResult p with
    | none => rw [hs] at hp; simp at hp
    | some sig =>
      obtain ⟨htr, sigs, hok⟩ := ih (fun q hq => h q (List.mem_cons_of_mem p hq))
      refine ⟨?_, sig :: sigs, ?_⟩
      · simp [signPaths, hs, htr]
      · simp [signPaths, hs, hok, exceptMap_ok]

theorem signPaths_fail {env : Env} {pre : List String} {bad : String}
    (post : List String)
    (hpre : ∀ p ∈ pre, (env.signResult p).isSome = true)
    (hbad : env.signResult bad = none) :
    signPaths env (pre ++ bad :: post) =
      (.error .signingError, (pre ++ [bad]).map Event.signerInvoked) := by
  induction pre with
  | nil => simp [signPaths, hbad]
  | cons q tl ih =>
    have hq := hpre q (List.mem_cons_self q tl)
    cases hs : env.signResult q with
    | none => rw [hs] at hq; simp at hq
    | some sig =>
      have hr := ih (fun r hmem => hpre r (List.mem_cons_of_mem q hmem))
      simp [signPaths, hs, hr, exceptMap_error]

theorem signPaths_error_inv {env : Env} {l : List String} {e : BuildError}
    (h : (signPaths env l).1 = .error e) : e = .signingError := by
  induction l with
  | nil => simp [signPaths] at h
  | cons p rest ih =>
    cases hs : env.signResult p with
    | none =>
      simp [signPaths, hs] at h
      exact h.symm
    | some sig =>
      simp only [signPaths, hs] at h
      cases hr : (signPaths env rest).1 with
      | error e' =>
        rw [hr, exceptMap_error] at h
        injection h with h
        exact ih (h ▸ hr)
      | ok v =>
        rw [hr, exceptMap_ok] at h
        exact Except.noConfusion h

/-! ### Requested-format lemmas -/

theorem collectTypes_error_inv {names : List String} {e : BuildError}
    (h : collectTypes names = .error e) :
    ∃ n, e = .unsupportedBundleFormatError n := by
  induction names with
  | nil => simp [collectTypes] at h
  | cons name rest ih =>
    simp only [collectTypes] at h
    split at h
    · simp at h
    · cases hf : PackageType.fromShortName name with
      | some t =>
        simp only [hf] at h
        cases hr : collectTypes rest with
        | error e' =>
          rw [hr, exceptMap_error] at h
          injection h with h
          exact ih (h ▸ hr)
        | ok v =>
          rw [hr, exceptMap_ok] at h
          exact Except.noConfusion h
      | none =>
        simp only [hf] at h
        simp at h
        exact ⟨name, h.symm⟩

theorem collectTypes_firstUnrecognized {pre : List String} {bad : String}
    (rest : List String)
    (hpre : ∀ p ∈ pre, (PackageType.fromShortName p).isSome = true)
    (hbadU : PackageType.fromShortName bad = none) (hbadN : bad ≠ "none") :
    collectTypes (pre ++ bad :: rest) =
      .error (.unsupportedBundleFormatError bad) := by
  induction pre with
  | nil => simp [collectTypes, hbadN, hbadU]
  | cons q tl ih =>
    have hq := hpre q (List.mem_cons_self q tl)
    have hqn : q ≠ "none" := by
      intro hEq
      rw [hEq] at hq
      have : PackageType.fromShortName "none" = none := rfl
      rw [this] at hq
      simp at hq
    cases hf : PackageType.fromShortName q with
    | none => rw [hf] at hq; simp at hq
    | some t =>
      have hr := ih (fun r hmem => hpre r (List.mem_cons_of_mem q hmem))
      simp [collectTypes, hqn, hf, hr, exceptMap_error]

theorem typesStep_error_inv {b : Build} {e : BuildError}
    (h : typesStep b = .error e) :
    ∃ n, e = .unsupportedBundleFormatError n := by
  cases hb : b.bundles with
  | none => simp [typesStep, hb] at h
  | some names =>
    simp only [typesStep, hb] at h
    cases hc : collectTypes names with
    | error e' =>
      rw [hc, exceptMap_error] at h
      injection h with h
      exact collectTypes_error_inv (h ▸ hc)
    | ok v =>
      rw [hc, exceptMap_ok] at h
      exact Except.noConfusion h

/-! ### Bundle-stage facts -/

theorem bundleStage_inactive {b : Build} {cfg : Config} {env : Env}
    (h : cfg.tauri.bundle.active = false) :
    bundleStage b cfg env = (.ok (), []) := by
  simp [bundleStage, h]

theorem bundleStage_fst_ne_hookError (b : Build) (cfg : Config) (env : Env)
    (c : String) :
    (bundleStage b cfg env).1 ≠ .error (.preBuildHookError c) := by
  unfold bundleStage
  split
  · simp
  · split
    · simp
    · split
      · simp
      · split
        · rename_i e heq
          intro hc
          simp at hc
          obtain ⟨n, hn⟩ := typesStep_error_inv heq
          rw [hn] at hc
          exact BuildError.noConfusion hc
        · split
          · simp
          · split
            · simp
            · split
              · split
                · rename_i e heq
                  intro hc
                  simp at hc
                  have := signPaths_error_inv heq
                  rw [this] at hc
                  exact BuildError.noConfusion hc
                · split
                  · simp
                  · simp
              · simp

theorem run_fst_hookError_inv {b : Build} {cfg : Config} {env : Env} {c : String}
    (h : (run b cfg env).1 = .error (.preBuildHookError c)) :
    (hookStep cfg env).1 = .error (.preBuildHookError c) := by
  unfold run at h
  split at h
  · simp at h
  · split at h
    · simp at h
    · split at h
      · simp at h
      · simp only at h
        unfold runLocked at h
        split at h
        · rename_i e heq
          simp at h
          rw [h] at heq
          exact heq
        · split at h
          · simp at h
          · split at h
            · simp at h
            · split at h
              · simp at h
              · split at h
                · simp at h
                · exact absurd h (bundleStage_fst_ne_hookError b cfg env c)

/-! ### Lock-scope lemmas -/

theorem lockedEvents_mid (mid : List Event)
    (h : ∀ e ∈ mid, e.kind ≠ EKind.lockA ∧ e.kind ≠ EKind.lockR) :
    lockedEvents (mid ++ [Event.lockReleased]) true = mid := by
  induction mid with
  | nil => rfl
  | cons e tl ih =>
    have he := h e (List.mem_cons_self e tl)
    have htl := fun e' hm => h e' (List.mem_cons_of_mem e hm)
    cases e <;>
      first
        | (exact absurd rfl he.1)
        | (exact absurd rfl he.2)
        | (simpa [lockedEvents] using ih htl)

theorem lockedEvents_run (b : Build) (cfg : Config) (env : Env) :
    lockedEvents (run b cfg env).2 false = [] ∨
    lockedEvents (run b cfg env).2 false = (runLocked b cfg env).2 := by
  rcases run_trace_shape b cfg env with h | h
  · left; rw [h]; rfl
  · right
    rw [h]
    show lockedEvents ((runLocked b cfg env).2 ++ [Event.lockReleased]) true = _
    exact lockedEvents_mid _ (runLocked_kinds b cfg env)

/-! ### Bundle-stage equations under gates -/

theorem bundleStage_on_allSign {b : Build} {cfg : Config} {env : Env}
    (hact : cfg.tauri.bundle.active = true) (hbg : BundleGatesOk env)
    (hupd : cfg.tauri.updater.active = true)
    (hpk : cfg.tauri.updater.pubkey.isSome = true)
    (hsign : ∀ p, (env.signResult p).isSome = true)
    {topt : Option (List PackageType)} (htypes : typesStep b = .ok topt) :
    (bundleStage b cfg env).1 = .ok () ∧
    ∃ tail,
      (bundleStage b cfg env).2 =
        mergeModuleEvents env ++ Event.bundlerInvoked topt ::
          ((updaterPaths env.producedBundles).map Event.signerInvoked ++ tail) ∧
      ∀ e ∈ tail, e.kind = EKind.report := by
  obtain ⟨hm, hbs, hsb, hbo⟩ := hbg
  obtain ⟨htr, sigs, hok⟩ :=
    signPaths_all_ok (l := updaterPaths env.producedBundles)
      (fun p _ => hsign p)
  cases hse : sigs.isEmpty with
  | true =>
    refine ⟨?_, [], ?_, by simp⟩ <;>
      simp [bundleStage, hact, hm, hbs, hsb, hbo, hupd, hpk, htypes, hok, hse,
            htr]
  | false =>
    refine ⟨?_, [Event.reportPrinted sigs], ?_, ?_⟩
    · simp [bundleStage, hact, hm, hbs, hsb, hbo, hupd, hpk, htypes, hok, hse]
    · simp [bundleStage, hact, hm, hbs, hsb, hbo, hupd, hpk, htypes, hok, hse,
            htr]
    · intro e he
      simp only [List.mem_singleton] at he
      rw [he]; rfl

theorem bundleStage_on_signFail {b : Build} {cfg : Config} {env : Env}
    {pre : List String} {bad : String} {post : List String}
    (hact : cfg.tauri.bundle.active = true) (hbg : BundleGatesOk env)
    (hupd : cfg.tauri.updater.active = true)
    (hpk : cfg.tauri.updater.pubkey.isSome = true)
    (hlist : updaterPaths env.producedBundles = pre ++ bad :: post)
    (hpre : ∀ p ∈ pre, (env.signResult p).isSome = true)
    (hbad : env.signResult bad = none)
    {topt : Option (List PackageType)} (htypes : typesStep b = .ok topt) :
    bundleStage b cfg env =
      (.error .signingError,
       mergeModuleEvents env ++ Event.bundlerInvoked topt ::
         (pre ++ [bad]).map Event.signerInvoked) := by
  obtain ⟨hm, hbs, hsb, hbo⟩ := hbg
  have hsp := @signPaths_fail env pre bad post hpre hbad
  rw [← hlist] at hsp
  simp [bundleStage, hact, hm, hbs, hsb, hbo, hupd, hpk, htypes, hsp]

theorem bundleStage_updater_off {b : Build} {cfg : Config} {env : Env}
    (h : cfg.tauri.updater.active = false ∨ cfg.tauri.updater.pubkey = none) :
    countKind EKind.signer (bundleStage b cfg env).2 = 0 := by
  have hg : (cfg.tauri.updater.active && cfg.tauri.updater.pubkey.isSome) = false := by
    rcases h with h | h <;> simp [h]
  have hmz : countKind EKind.signer (mergeModuleEvents env) = 0 :=
    countKind_eq_zero (fun e he => by
      rcases mergeModuleEvents_kinds env e he with h' | h' <;> rw [h'] <;> simp)
  unfold bundleStage
  split
  · rfl
  · split
    · exact hmz
    · split
      · exact hmz
      · split
        · exact hmz
        · split
          · exact hmz
          · split
            · simp [countKind_append, hmz, countKind, Event.kind]
            · rw [if_neg (by simp [hg])]
              simp [countKind_append, hmz, countKind, Event.kind]

/-! ### Per-kind count decompositions of the locked phase -/

theorem countKind_hook_runLocked (b : Build) (cfg : Config) (env : Env) :
    countKind EKind.hook (runLocked b cfg env).2 =
      countKind EKind.hook (hookStep cfg env).2 := by
  have h2 : countKind EKind.hook (renameEvents cfg env) = 0 :=
    countKind_eq_zero (fun e he => by rw [renameEvents_kinds cfg env e he]; simp)
  have h3 : countKind EKind.hook (bundleStage b cfg env).2 = 0 :=
    countKind_eq_zero (fun e he => by
      rcases bundleStage_kinds b cfg env e he with h | h | h | h | h <;>
        rw [h] <;> simp)
  unfold runLocked
  split
  · rfl
  · split
    · rfl
    · split
      · simp [countKind_append, countKind, Event.kind]
      · split
        · simp [countKind_append, countKind, Event.kind]
        · split
          · simp [countKind_append, countKind, Event.kind, h2]
          · simp [countKind_append, countKind, Event.kind, h2, h3]

theorem countKind_rename_runLocked (b : Build) (cfg : Config) (env : Env) :
    countKind EKind.rename (runLocked b cfg env).2 = 0 ∨
    countKind EKind.rename (runLocked b cfg env).2 =
      countKind EKind.rename (renameEvents cfg env) := by
  have h1 : countKind EKind.rename (hookStep cfg env).2 = 0 :=
    countKind_eq_zero (fun e he => by rw [hookStep_kinds cfg env e he]; simp)
  have h3 : countKind EKind.rename (bundleStage b cfg env).2 = 0 :=
    countKind_eq_zero (fun e he => by
      rcases bundleStage_kinds b cfg env e he with h | h | h | h | h <;>
        rw [h] <;> simp)
  unfold runLocked
  split
  · left; exact h1
  · split
    · left; exact h1
    · split
      · left; simp [countKind_append, countKind, Event.kind, h1]
      · split
        · left; simp [countKind_append, countKind, Event.kind, h1]
        · split
          · right; simp [countKind_append, countKind, Event.kind, h1]
          · right; simp [countKind_append, countKind, Event.kind, h1, h3]

/-! ### The compiler event determines the resolved runner -/

theorem runLocked_compiler_mem {b : Build} {cfg : Config} {env : Env}
    {e : Event} (he : e ∈ (runLocked b cfg env).2)
    (hk : e.kind = EKind.compiler) :
    e = Event.compilerInvoked (resolveRunner b cfg) b.target b.debug := by
  unfold runLocked at he
  split at he
  · rw [hookStep_kinds cfg env e he] at hk; exact EKind.noConfusion hk
  · split at he
    · rw [hookStep_kinds cfg env e he] at hk; exact EKind.noConfusion hk
    · split at he
      · rw [List.mem_append, List.mem_singleton] at he
        rcases he with h | h
        · rw [hookStep_kinds cfg env e h] at hk; exact EKind.noConfusion hk
        · exact h
      · split at he
        · rw [List.mem_append, List.mem_singleton] at he
          rcases he with h | h
          · rw [hookStep_kinds cfg env e h] at hk; exact EKind.noConfusion hk
          · exact h
        · split at he
          · rw [List.mem_append, List.mem_cons] at he
            rcases he with h | h | h
            · rw [hookStep_kinds cfg env e h] at hk; exact EKind.noConfusion hk
            · exact h
            · rw [renameEvents_kinds cfg env e h] at hk
              exact EKind.noConfusion hk
          · rw [List.mem_append, List.mem_cons, List.mem_append] at he
            rcases he with h | h | h | h
            · rw [hookStep_kinds cfg env e h] at hk; exact EKind.noConfusion hk
            · exact h
            · rw [renameEvents_kinds cfg env e h] at hk
              exact EKind.noConfusion hk
            · rcases bundleStage_kinds b cfg env e h with h' | h' | h' | h' | h' <;>
                (rw [h'] at hk; exact EKind.noConfusion hk)

theorem run_compiler_mem {b : Build} {cfg : Config} {env : Env} {e : Event}
    (he : e ∈ (run b cfg env).2) (hk : e.kind = EKind.compiler) :
    e = Event.compilerInvoked (resolveRunner b cfg) b.target b.debug := by
  rcases run_trace_shape b cfg env with h | h
  · rw [h] at he; exact absurd he (List.not_mem_nil e)
  · rw [h] at he
    simp only [List.mem_append, List.mem_cons, List.not_mem_nil, or_false] at he
    rcases he with (h1 | h1) | h1
    · rw [h1] at hk; exact EKind.noConfusion hk
    · exact runLocked_compiler_mem h1 hk
    · rw [h1] at hk; exact EKind.noConfusion hk

theorem bundleStage_ok_counts {b : Build} {cfg : Config} {env : Env}
    (hact : cfg.tauri.bundle.active = true) (hbg : BundleGatesOk env)
    (hsign : ∀ p, (env.signResult p).isSome = true)
    {topt : Option (List PackageType)} (htypes : typesStep b = .ok topt) :
    (bundleStage b cfg env).1 = .ok () ∧
    countKind EKind.bundler (bundleStage b cfg env).2 = 1 ∧
    Event.bundlerInvoked topt ∈ (bundleStage b cfg env).2 := by
  have hmz : countKind EKind.bundler (mergeModuleEvents env) = 0 :=
    countKind_eq_zero (fun e he => by
      rcases mergeModuleEvents_kinds env e he with h | h <;> rw [h] <;> simp)
  obtain ⟨hm, hbs, hsb, hbo⟩ := hbg
  cases hu : (cfg.tauri.updater.active && cfg.tauri.updater.pubkey.isSome) with
  | false =>
    have hbst : bundleStage b cfg env =
        (.ok (), mergeModuleEvents env ++ [Event.bundlerInvoked topt]) := by
      simp [bundleStage, hact, hm, hbs, hsb, hbo, htypes, hu]
    rw [hbst]
    refine ⟨rfl, ?_, ?_⟩
    · simp [countKind_append, hmz, countKind, Event.kind]
    · simp
  | true =>
    rw [Bool.and_eq_true] at hu
    obtain ⟨hupd, hpk⟩ := hu
    obtain ⟨hok1, tail, htr, htail⟩ :=
      bundleStage_on_allSign hact ⟨hm, hbs, hsb, hbo⟩ hupd hpk hsign htypes
    have hmap : countKind EKind.bundler
        ((updaterPaths env.producedBundles).map Event.signerInvoked) = 0 :=
      countKind_eq_zero (fun e he => by
        obtain ⟨p, hp, hpe⟩ := List.mem_map.mp he
        rw [← hpe]; simp [Event.kind])
    have htlz : countKind EKind.bundler tail = 0 :=
      countKind_eq_zero (fun e he => by rw [htail e he]; simp)
    refine ⟨hok1, ?_, ?_⟩
    · rw [htr]
      simp [countKind_append, countKind, Event.kind, hmz, hmap, htlz]
    · rw [htr]
      simp

/-! ## Claims -/

/-- C1 counterexample: with requested formats `["none"]` and
`bundle.active = true`, the pipeline succeeds but the packaging engine
(`bundle_project`) is invoked once — with an empty package-type restriction —
not zero times as the claim states. -/
theorem C1_counterexample :
    (run { Build.new with bundles := some ["none"] } cfgA envA).1 = .ok () ∧
    countKind EKind.bundler
      (run { Build.new with bundles := some ["none"] } cfgA envA).2 = 1 := by
  constructor <;> rfl

/-- C1 (amended): a requested-format list equal to `["none"]` makes the
format loop break immediately, so the package-type restriction passed to the
bundler is the empty list; the pipeline succeeds and `bundle_project` is
invoked exactly once (with that empty restriction), not zero times. -/
theorem C1_none_formats {b : Build} {cfg : Config} {env : Env}
    (hb : b.bundles = some ["none"])
    (hact : cfg.tauri.bundle.active = true)
    (hg : GatesOk cfg env) (hbg : BundleGatesOk env)
    (hsign : ∀ p, (env.signResult p).isSome = true) :
    (run b cfg env).1 = .ok () ∧
    countKind EKind.bundler (run b cfg env).2 = 1 ∧
    Event.bundlerInvoked (some []) ∈ (run b cfg env).2 := by
  have htypes : typesStep b = .ok (some []) := by
    simp [typesStep, hb, collectTypes, exceptMap_ok]
  obtain ⟨hok1, hcnt, hmem⟩ := bundleStage_ok_counts hact hbg hsign htypes
  have hzH : countKind EKind.bundler (hookStep cfg env).2 = 0 :=
    countKind_eq_zero (fun e he => by rw [hookStep_kinds cfg env e he]; simp)
  have hzR : countKind EKind.bundler (renameEvents cfg env) = 0 :=
    countKind_eq_zero (fun e he => by rw [renameEvents_kinds cfg env e he]; simp)
  rw [run_eq_of_gates hg]
  refine ⟨hok1, ?_, ?_⟩
  · simp [countKind_append, countKind, Event.kind, hzH, hzR, hcnt]
  · simp [List.mem_append, hmem]

/-- C1 witness: the amended theorem applied at a concrete request and
environment. -/
theorem C1_none_formats_witness :
    (run { Build.new with bundles := some ["none"] } cfgA envA).1 = .ok () ∧
    countKind EKind.bundler
      (run { Build.new with bundles := some ["none"] } cfgA envA).2 = 1 ∧
    Event.bundlerInvoked (some []) ∈
      (run { Build.new with bundles := some ["none"] } cfgA envA).2 :=
  C1_none_formats rfl rfl (by decide) (by decide) (fun p => rfl)

/-- C2 counterexample: with requested formats `["none", "bogus"]` — where
"bogus" is not a recognized short name — the pipeline succeeds instead of
failing with an unsupported-bundle-format error, because the `"none"` entry
breaks the loop before "bogus" is examined. -/
theorem C2_counterexample :
    PackageType.fromShortName "bogus" = none ∧
    (run { Build.new with bundles := some ["none", "bogus"] } cfgA envA).1 =
      .ok () := by
  constructor <;> rfl

/-- C2 (amended): an unrecognized requested format name fails the pipeline
with `unsupportedBundleFormatError` naming it, and the bundling engine and
signer are never invoked — provided every entry before it is recognized
(in particular no `"none"` entry precedes it; entries after a `"none"` are
never examined, as the counterexample shows). -/
theorem C2_unsupported_format {b : Build} {cfg : Config} {env : Env}
    {pre : List String} {bad : String} {rest : List String}
    (hb : b.bundles = some (pre ++ bad :: rest))
    (hpre : ∀ p ∈ pre, (PackageType.fromShortName p).isSome = true)
    (hbadU : PackageType.fromShortName bad = none) (hbadN : bad ≠ "none")
    (hact : cfg.tauri.bundle.active = true)
    (hg : GatesOk cfg env)
    (hm : mergeOkB env = true) (hbs : env.bundleSettingsOk = true) :
    (run b cfg env).1 = .error (.unsupportedBundleFormatError bad) ∧
    countKind EKind.bundler (run b cfg env).2 = 0 ∧
    countKind EKind.signer (run b cfg env).2 = 0 := by
  have htypes : typesStep b = .error (.unsupportedBundleFormatError bad) := by
    simp [typesStep, hb,
          collectTypes_firstUnrecognized rest hpre hbadU hbadN, exceptMap_error]
  have hbst : bundleStage b cfg env =
      (.error (.unsupportedBundleFormatError bad), mergeModuleEvents env) := by
    simp [bundleStage, hact, hm, hbs, htypes]
  have hzH : ∀ k, k ≠ EKind.hook → countKind k (hookStep cfg env).2 = 0 :=
    fun k hk => countKind_eq_zero (fun e he => by
      rw [hookStep_kinds cfg env e he]; exact Ne.symm hk)
  have hzR : ∀ k, k ≠ EKind.rename → countKind k (renameEvents cfg env) = 0 :=
    fun k hk => countKind_eq_zero (fun e he => by
      rw [renameEvents_kinds cfg env e he]; exact Ne.symm hk)
  have hzM : ∀ k, k ≠ EKind.mergeRM → k ≠ EKind.mergeWR →
      countKind k (mergeModuleEvents env) = 0 :=
    fun k h1 h2 => countKind_eq_zero (fun e he => by
      rcases mergeModuleEvents_kinds env e he with h | h <;> rw [h]
      · exact Ne.symm h1
      · exact Ne.symm h2)
  rw [run_eq_of_gates hg, hbst]
  refine ⟨rfl, ?_, ?_⟩
  · simp [countKind_append, countKind, Event.kind,
          hzH EKind.bundler (by simp), hzR EKind.bundler (by simp),
          hzM EKind.bundler (by simp) (by simp)]
  · simp [countKind_append, countKind, Event.kind,
          hzH EKind.signer (by simp), hzR EKind.signer (by simp),
          hzM EKind.signer (by simp) (by simp)]

/-- C2 witness: the amended theorem applied at the request
`["deb", "bogus"]`. -/
theorem C2_unsupported_format_witness :
    (run { Build.new with bundles := some ["deb", "bogus"] } cfgA envA).1 =
      .error (.unsupportedBundleFormatError "bogus") ∧
    countKind EKind.bundler
      (run { Build.new with bundles := some ["deb", "bogus"] } cfgA envA).2 = 0 ∧
    countKind EKind.signer
      (run { Build.new with bundles := some ["deb", "bogus"] } cfgA envA).2 = 0 :=
  @C2_unsupported_format { Build.new with bundles := some ["deb", "bogus"] }
    cfgA envA ["deb"] "bogus" [] rfl
    (fun p hp => by
      rw [List.mem_singleton] at hp
      rw [hp]; rfl)
    rfl (by decide) rfl (by decide) rfl rfl

/-- C3 counterexample: in a concrete successful run, both the before-build
hook spawn and the compiler invocation occur while the configuration lock is
held — the guard is not released before these long-running external
processes are spawned, contrary to the claim. -/
theorem C3_counterexample :
    Event.hookSpawned "sh" "-c" "npm run build" "appdir" ∈
      lockedEvents (run Build.new cfgA envA).2 false ∧
    Event.compilerInvoked "cargo" none false ∈
      lockedEvents (run Build.new cfgA envA).2 false := by
  constructor <;> decide

/-- C3 (amended): the configuration lock guard, once acquired, is held until
`run` returns — the trace is empty or starts with the acquisition and ends
with the release, with no lock event in between — and consequently every
spawned-process event (before-build hook, compiler) occurs while the lock is
held, not after its release. -/
theorem C3_lock_held_across_pipeline (b : Build) (cfg : Config) (env : Env) :
    ((run b cfg env).2 = [] ∨
      (run b cfg env).2 =
        Event.lockAcquired :: (runLocked b cfg env).2 ++ [Event.lockReleased]) ∧
    (∀ e ∈ (runLocked b cfg env).2,
        e.kind ≠ EKind.lockA ∧ e.kind ≠ EKind.lockR) ∧
    ∀ e ∈ (run b cfg env).2,
      e.kind = EKind.hook ∨ e.kind = EKind.compiler →
      e ∈ lockedEvents (run b cfg env).2 false := by
  refine ⟨run_trace_shape b cfg env, runLocked_kinds b cfg env, ?_⟩
  intro e he hk
  rcases run_trace_shape b cfg env with h | h
  · rw [h] at he; exact absurd he (List.not_mem_nil e)
  · have hmid : lockedEvents (run b cfg env).2 false = (runLocked b cfg env).2 := by
      rw [h]
      show lockedEvents ((runLocked b cfg env).2 ++ [Event.lockReleased]) true = _
      exact lockedEvents_mid _ (runLocked_kinds b cfg env)
    rw [hmid]
    rw [h] at he
    simp only [List.mem_append, List.mem_cons, List.not_mem_nil, or_false] at he
    rcases he with (h1 | h1) | h1
    · rw [h1] at hk
      rcases hk with hk | hk <;> exact EKind.noConfusion hk
    · exact h1
    · rw [h1] at hk
      rcases hk with hk | hk <;> exact EKind.noConfusion hk

/-- C3 witness: the amended theorem applied at a concrete run, showing the
compiler invocation happens under the lock. -/
theorem C3_lock_held_across_pipeline_witness :
    Event.compilerInvoked "cargo" none false ∈
      lockedEvents (run Build.new cfgA envA).2 false :=
  (C3_lock_held_across_pipeline Build.new cfgA envA).2.2
    (Event.compilerInvoked "cargo" none false) (by decide) (by decide)

/-- C4 counterexample: with a non-empty before-build command configured and
a missing distribution directory, the run fails with the missing-web-assets
error but the before-build hook child process was already spawned —
contradicting the claim that no child process at all is spawned. -/
theorem C4_counterexample :
    (run Build.new cfgA { envA with distDirExists := fun _ => false }).1 =
      .error (.missingWebAssetsError "dist") ∧
    countKind EKind.hook
      (run Build.new cfgA { envA with distDirExists := fun _ => false }).2 = 1 := by
  constructor <;> rfl

/-- C4 (amended): when the configured distribution directory does not exist,
the run fails with `missingWebAssetsError` naming the configured path, before
any compilation (compiler invocation count = 0) and before any bundling or
signing — but after the before-build hook, which (when configured non-empty)
has already been spawned by then. -/
theorem C4_missing_dist_dir {b : Build} {cfg : Config} {env : Env}
    (h1 : env.configLoadOk = true) (h2 : env.workingDirOk = true)
    (h3 : env.manifestOk = true) (h4 : hookOk cfg env = true)
    (h5 : env.distDirExists cfg.build.distDir = false) :
    (run b cfg env).1 = .error (.missingWebAssetsError cfg.build.distDir) ∧
    countKind EKind.compiler (run b cfg env).2 = 0 ∧
    countKind EKind.bundler (run b cfg env).2 = 0 ∧
    countKind EKind.signer (run b cfg env).2 = 0 := by
  have hrl : runLocked b cfg env =
      (.error (.missingWebAssetsError cfg.build.distDir), (hookStep cfg env).2) := by
    simp [runLocked, hookStep_fst_of_ok h4, h5]
  have hzH : ∀ k, k ≠ EKind.hook → countKind k (hookStep cfg env).2 = 0 :=
    fun k hk => countKind_eq_zero (fun e he => by
      rw [hookStep_kinds cfg env e he]; exact Ne.symm hk)
  rw [run_eq_of_pre h1 h2 h3, hrl]
  refine ⟨rfl, ?_, ?_, ?_⟩
  · simp [countKind_append, countKind, Event.kind,
          hzH EKind.compiler (by simp)]
  · simp [countKind_append, countKind, Event.kind,
          hzH EKind.bundler (by simp)]
  · simp [countKind_append, countKind, Event.kind,
          hzH EKind.signer (by simp)]

/-- C4 witness: the amended theorem applied at a concrete environment with a
missing distribution directory. -/
theorem C4_missing_dist_dir_witness :
    (run Build.new cfgA { envA with distDirExists := fun _ => false }).1 =
      .error (.missingWebAssetsError cfgA.build.distDir) ∧
    countKind EKind.compiler
      (run Build.new cfgA { envA with distDirExists := fun _ => false }).2 = 0 ∧
    countKind EKind.bundler
      (run Build.new cfgA { envA with distDirExists := fun _ => false }).2 = 0 ∧
    countKind EKind.signer
      (run Build.new cfgA { envA with distDirExists := fun _ => false }).2 = 0 :=
  C4_missing_dist_dir rfl rfl rfl (by decide) rfl

/-- C5: the runner recorded in any compiler-invocation event of any run is
the resolved runner, and the resolution precedence is: explicit request
override, else configuration-provided runner, else the built-in default
"cargo"; each source alone determines the result when the higher-priority
sources are absent. -/
theorem C5_runner_resolution :
    (∀ b cfg env r t d,
        Event.compilerInvoked r t d ∈ (run b cfg env).2 →
        r = resolveRunner b cfg) ∧
    (∀ b cfg s, b.runner = some s → resolveRunner b cfg = s) ∧
    (∀ b cfg s, b.runner = none → cfg.build.runner = some s →
        resolveRunner b cfg = s) ∧
    (∀ b cfg, b.runner = none → cfg.build.runner = none →
        resolveRunner b cfg = "cargo") := by
  refine ⟨?_, ?_, ?_, ?_⟩
  · intro b cfg env r t d hmem
    have h := run_compiler_mem hmem rfl
    injection h with hr ht hd
  · intro b cfg s hs
    unfold resolveRunner
    rw [hs]
    rfl
  · intro b cfg s hb hc
    unfold resolveRunner
    rw [hb, hc]
    rfl
  · intro b cfg hb hc
    unfold resolveRunner
    rw [hb, hc]
    rfl

/-- C5 witness: the resolution applied at concrete inputs for each of the
three precedence levels, and the trace conjunct at a concrete run. -/
theorem C5_runner_resolution_witness :
    resolveRunner { Build.new with runner := some "custom" } cfgA = "custom" ∧
    resolveRunner Build.new
      { cfgA with
        build := { distDir := "dist", runner := some "cfgrunner",
                   beforeBuildCommand := some "npm run build" } } = "cfgrunner" ∧
    resolveRunner Build.new cfgA = "cargo" ∧
    "cargo" = resolveRunner Build.new cfgA :=
  ⟨C5_runner_resolution.2.1 { Build.new with runner := some "custom" } cfgA
      "custom" rfl,
   C5_runner_resolution.2.2.1 Build.new
      { cfgA with
        build := { distDir := "dist", runner := some "cfgrunner",
                   beforeBuildCommand := some "npm run build" } }
      "cfgrunner" rfl rfl,
   C5_runner_resolution.2.2.2 Build.new cfgA rfl rfl,
   C5_runner_resolution.1 Build.new cfgA envA "cargo" none false (by decide)⟩

/-- C6: when updater signing is enabled (updater flag set and public key
configured) and every signature succeeds, the signer is invoked exactly once
per artifact path of updater-type bundles (counted per path) and zero times
for paths not belonging to updater-type bundles; when the updater flag is
off or no public key is configured, the signer is never invoked at all. -/
theorem C6_updater_signing :
    (∀ b cfg env, GatesOk cfg env → BundleGatesOk env →
      cfg.tauri.bundle.active = true →
      cfg.tauri.updater.active = true →
      cfg.tauri.updater.pubkey.isSome = true →
      (∀ p, (env.signResult p).isSome = true) →
      (∃ topt, typesStep b = .ok topt) →
      (∀ p, countPath p (run b cfg env).2 =
          countStr p (updaterPaths env.producedBundles)) ∧
      (∀ p, p ∉ updaterPaths env.producedBundles →
          countPath p (run b cfg env).2 = 0)) ∧
    (∀ b cfg env,
      cfg.tauri.updater.active = false ∨ cfg.tauri.updater.pubkey = none →
      countKind EKind.signer (run b cfg env).2 = 0) := by
  constructor
  · intro b cfg env hg hbg hact hupd hpk hsign htypes
    obtain ⟨topt, htypes⟩ := htypes
    obtain ⟨hok1, tail, htr, htail⟩ :=
      bundleStage_on_allSign hact hbg hupd hpk hsign htypes
    have hmain : ∀ p, countPath p (run b cfg env).2 =
        countStr p (updaterPaths env.producedBundles) := by
      intro p
      have hzH : countPath p (hookStep cfg env).2 = 0 :=
        countPath_zero_of_no_signer (fun e he => by
          rw [hookStep_kinds cfg env e he]; simp)
      have hzR : countPath p (renameEvents cfg env) = 0 :=
        countPath_zero_of_no_signer (fun e he => by
          rw [renameEvents_kinds cfg env e he]; simp)
      have hzM : countPath p (mergeModuleEvents env) = 0 :=
        countPath_zero_of_no_signer (fun e he => by
          rcases mergeModuleEvents_kinds env e he with h | h <;> rw [h] <;> simp)
      have hzT : countPath p tail = 0 :=
        countPath_zero_of_no_signer (fun e he => by rw [htail e he]; simp)
      rw [run_eq_of_gates hg, htr]
      simp [countPath_append, countPath, hzH, hzR, hzM, hzT,
            countPath_map_signer]
    refine ⟨hmain, ?_⟩
    intro p hp
    rw [hmain p]
    exact countStr_eq_zero_of_not_mem hp
  · intro b cfg env h
    rcases countKind_run_cases EKind.signer (by simp) (by simp) b cfg env
      with hc | hc
    · exact hc
    · rw [hc]
      rcases countKind_runLocked_cases EKind.signer b cfg env (by simp)
        (by simp) (by simp) with hc2 | hc2
      · exact hc2
      · rw [hc2]
        exact bundleStage_updater_off h

/-- C6 witness: the theorem applied at concrete runs — one signer invocation
for the updater artifact, none for the deb artifact, and none at all when
the updater flag is off. -/
theorem C6_updater_signing_witness :
    countPath "bundle.tar.gz" (run Build.new cfgA envA).2 =
      countStr "bundle.tar.gz" (updaterPaths envA.producedBundles) ∧
    countPath "bundle.deb" (run Build.new cfgA envA).2 = 0 ∧
    countKind EKind.signer
      (run Build.new
        { cfgA with
          tauri := { bundle := { active := true },
                     updater := { active := false, pubkey := some "PUBKEY" } } }
        envA).2 = 0 :=
  ⟨(C6_updater_signing.1 Build.new cfgA envA (by decide) (by decide) rfl rfl
      rfl (fun p => rfl) ⟨none, rfl⟩).1 "bundle.tar.gz",
   (C6_updater_signing.1 Build.new cfgA envA (by decide) (by decide) rfl rfl
      rfl (fun p => rfl) ⟨none, rfl⟩).2 "bundle.deb" (by decide),
   C6_updater_signing.2 Build.new
      { cfgA with
        tauri := { bundle := { active := true },
                   updater := { active := false, pubkey := some "PUBKEY" } } }
      envA (Or.inl rfl)⟩

/-- C7: the first signing failure is fatal — the run returns the signing
error, and the signer invocations are exactly the artifact paths up to and
including the first failing one; artifacts after it are never handed to the
signer. -/
theorem C7_signing_fail_fast {b : Build} {cfg : Config} {env : Env}
    {pre : List String} {bad : String} {post : List String}
    (hg : GatesOk cfg env) (hbg : BundleGatesOk env)
    (hact : cfg.tauri.bundle.active = true)
    (hupd : cfg.tauri.updater.active = true)
    (hpk : cfg.tauri.updater.pubkey.isSome = true)
    (hlist : updaterPaths env.producedBundles = pre ++ bad :: post)
    (hpre : ∀ p ∈ pre, (env.signResult p).isSome = true)
    (hbad : env.signResult bad = none)
    (htypes : ∃ topt, typesStep b = .ok topt) :
    (run b cfg env).1 = .error .signingError ∧
    ∀ q, countPath q (run b cfg env).2 = countStr q (pre ++ [bad]) := by
  obtain ⟨topt, htypes⟩ := htypes
  have hbst := bundleStage_on_signFail hact hbg hupd hpk hlist hpre hbad htypes
  rw [run_eq_of_gates hg, hbst]
  refine ⟨rfl, ?_⟩
  intro q
  have hzH : countPath q (hookStep cfg env).2 = 0 :=
    countPath_zero_of_no_signer (fun e he => by
      rw [hookStep_kinds cfg env e he]; simp)
  have hzR : countPath q (renameEvents cfg env) = 0 :=
    countPath_zero_of_no_signer (fun e he => by
      rw [renameEvents_kinds cfg env e he]; simp)
  have hzM : countPath q (mergeModuleEvents env) = 0 :=
    countPath_zero_of_no_signer (fun e he => by
      rcases mergeModuleEvents_kinds env e he with h | h <;> rw [h] <;> simp)
  simp [countPath_append, countPath, hzH, hzR, hzM, countPath_map_signer,
        countStr_append, countStr]

/-- C7 witness: the theorem applied at a concrete environment whose signer
fails on the only updater artifact. -/
theorem C7_signing_fail_fast_witness :
    (run Build.new cfgA { envA with signResult := fun _ => none }).1 =
      .error .signingError ∧
    countPath "bundle.tar.gz"
      (run Build.new cfgA { envA with signResult := fun _ => none }).2 =
      countStr "bundle.tar.gz" ([] ++ ["bundle.tar.gz"]) :=
  ⟨(@C7_signing_fail_fast Build.new cfgA
      { envA with signResult := fun _ => none } [] "bundle.tar.gz" []
      (by decide) (by decide) rfl rfl rfl rfl
      (fun p hp => absurd hp (List.not_mem_nil p)) rfl ⟨none, rfl⟩).1,
   (@C7_signing_fail_fast Build.new cfgA
      { envA with signResult := fun _ => none } [] "bundle.tar.gz" []
      (by decide) (by decide) rfl rfl rfl rfl
      (fun p hp => absurd hp (List.not_mem_nil p)) rfl ⟨none, rfl⟩).2
     "bundle.tar.gz"⟩

/-- C8: an absent or empty before-build command is a no-op (no hook process,
no hook error); a non-empty command is spawned through the platform shell
(`cmd /C` on Windows, `sh -c` otherwise) in the application directory; a
non-zero exit fails the run with `preBuildHookError` carrying the command
string; a zero exit never produces a hook error. -/
theorem C8_before_build_hook :
    (∀ b cfg env, (cfg.build.beforeBuildCommand = none ∨
        cfg.build.beforeBuildCommand = some "") →
      countKind EKind.hook (run b cfg env).2 = 0 ∧
      ∀ c, (run b cfg env).1 ≠ .error (.preBuildHookError c)) ∧
    (∀ cfg env c, cfg.build.beforeBuildCommand = some c → c.isEmpty = false →
      (hookStep cfg env).2 = [shellEvent env.platform c env.appDir]) ∧
    (∀ c d, shellEvent Platform.windows c d = .hookSpawned "cmd" "/C" c d ∧
            shellEvent Platform.other c d = .hookSpawned "sh" "-c" c d) ∧
    (∀ b cfg env c, env.configLoadOk = true → env.workingDirOk = true →
      env.manifestOk = true → cfg.build.beforeBuildCommand = some c →
      c.isEmpty = false → env.hookExitOk c = false →
      (run b cfg env).1 = .error (.preBuildHookError c)) ∧
    (∀ b cfg env, hookOk cfg env = true →
      ∀ c, (run b cfg env).1 ≠ .error (.preBuildHookError c)) := by
  refine ⟨?_, ?_, ?_, ?_, ?_⟩
  · intro b cfg env h
    have hempty : (hookStep cfg env).2 = [] := by
      have hie : ("" : String).isEmpty = true := rfl
      rcases h with h | h <;> simp [hookStep, h, hie]
    constructor
    · rcases countKind_run_cases EKind.hook (by simp) (by simp) b cfg env
        with hc | hc
      · exact hc
      · rw [hc, countKind_hook_runLocked, hempty]
        rfl
    · intro c hc
      have h2 := run_fst_hookError_inv hc
      obtain ⟨c', _, hbc, hie, _⟩ := hookStep_fst_error h2
      rcases h with h | h
      · rw [h] at hbc; exact Option.noConfusion hbc
      · rw [h] at hbc
        injection hbc with hbc
        rw [← hbc] at hie
        exact Bool.noConfusion hie
  · intro cfg env c h1 h2
    cases hex : env.hookExitOk c <;> simp [hookStep, h1, h2, hex]
  · intro c d
    exact ⟨rfl, rfl⟩
  · intro b cfg env c h1 h2 h3 hbc hie hex
    have hhs : (hookStep cfg env).1 = .error (.preBuildHookError c) := by
      simp [hookStep, hbc, hie, hex]
    have hrl : (runLocked b cfg env).1 = .error (.preBuildHookError c) := by
      simp [runLocked, hhs]
    rw [run_eq_of_pre h1 h2 h3]
    exact hrl
  · intro b cfg env hok c hc
    have h2 := run_fst_hookError_inv hc
    rw [hookStep_fst_of_ok hok] at h2
    exact Except.noConfusion h2

/-- C8 witness: the hook-free case and the failing-hook case at concrete
inputs. -/
theorem C8_before_build_hook_witness :
    countKind EKind.hook
      (run Build.new
        { cfgA with
          build := { distDir := "dist", runner := none,
                     beforeBuildCommand := none } } envA).2 = 0 ∧
    (run Build.new cfgA { envA with hookExitOk := fun _ => false }).1 =
      .error (.preBuildHookError "npm run build") :=
  ⟨(C8_before_build_hook.1 Build.new
      { cfgA with
        build := { distDir := "dist", runner := none,
                   beforeBuildCommand := none } } envA (Or.inl rfl)).1,
   C8_before_build_hook.2.2.2.1 Build.new cfgA
      { envA with hookExitOk := fun _ => false } "npm run build"
      rfl rfl rfl rfl rfl rfl⟩

/-- C9 counterexample: a product name equal to the binary's default name is
configured, and the rename is still performed (source and destination
coincide) — the code renames whenever a product name is configured, not only
when it is distinct from the default binary name as the claim's
"if and only if" requires. -/
theorem C9_counterexample :
    cfgA.package.productName = some envA.binName ∧
    countKind EKind.rename (run Build.new cfgA envA).2 = 1 := by
  constructor <;> rfl

/-- C9 (amended): after a successful compile the binary is renamed exactly
when a product name is configured — whether or not it differs from the
default binary name — using the platform naming convention (`.exe` on the
Windows family); no configured product name means no rename; a failing
rename aborts the run with `renameError`. -/
theorem C9_rename_product_name :
    (∀ b cfg env pn, GatesOk cfg env → cfg.package.productName = some pn →
      countKind EKind.rename (run b cfg env).2 = 1 ∧
      Event.renameInvoked (renameSrcDst env pn).1 (renameSrcDst env pn).2 ∈
        (run b cfg env).2) ∧
    (∀ env pn, env.platform = Platform.windows →
      renameSrcDst env pn =
        (env.outDir ++ "/" ++ env.binName ++ ".exe",
         env.outDir ++ "/" ++ pn ++ ".exe")) ∧
    (∀ env pn, env.platform = Platform.other →
      renameSrcDst env pn =
        (env.outDir ++ "/" ++ env.binName, env.outDir ++ "/" ++ pn)) ∧
    (∀ b cfg env, cfg.package.productName = none →
      countKind EKind.rename (run b cfg env).2 = 0) ∧
    (∀ b cfg env pn, env.configLoadOk = true → env.workingDirOk = true →
      env.manifestOk = true → hookOk cfg env = true →
      env.distDirExists cfg.build.distDir = true → env.compileOk = true →
      env.appSettingsOk = true → cfg.package.productName = some pn →
      env.renameOk (renameSrcDst env pn).1 (renameSrcDst env pn).2 = false →
      (run b cfg env).1 = .error .renameError) := by
  refine ⟨?_, ?_, ?_, ?_, ?_⟩
  · intro b cfg env pn hg hpn
    have hre : renameEvents cfg env =
        [Event.renameInvoked (renameSrcDst env pn).1 (renameSrcDst env pn).2] := by
      simp [renameEvents, hpn]
    have hzH : countKind EKind.rename (hookStep cfg env).2 = 0 :=
      countKind_eq_zero (fun e he => by
        rw [hookStep_kinds cfg env e he]; simp)
    have hzB : countKind EKind.rename (bundleStage b cfg env).2 = 0 :=
      countKind_eq_zero (fun e he => by
        rcases bundleStage_kinds b cfg env e he with h | h | h | h | h <;>
          rw [h] <;> simp)
    rw [run_eq_of_gates hg, hre]
    constructor
    · simp [countKind_append, countKind, Event.kind, hzH, hzB]
    · simp
  · intro env pn h
    simp [renameSrcDst, h]
  · intro env pn h
    simp [renameSrcDst, h]
  · intro b cfg env hpn
    rcases countKind_run_cases EKind.rename (by simp) (by simp) b cfg env
      with hc | hc
    · exact hc
    · rw [hc]
      rcases countKind_rename_runLocked b cfg env with hc2 | hc2
      · exact hc2
      · rw [hc2]
        simp [renameEvents, hpn, countKind]
  · intro b cfg env pn h1 h2 h3 h4 h5 h6 h7 hpn hren
    have hrb : renameOkB cfg env = false := by
      simp [renameOkB, hpn, hren]
    have hrl : (runLocked b cfg env).1 = .error .renameError := by
      simp [runLocked, hookStep_fst_of_ok h4, h5, h6, h7, hrb]
    rw [run_eq_of_pre h1 h2 h3]
    exact hrl

/-- C9 witness: the amended theorem applied at concrete inputs — one rename
with a configured product name, and a rename-error run when the rename
fails. -/
theorem C9_rename_product_name_witness :
    countKind EKind.rename (run Build.new cfgA envA).2 = 1 ∧
    Event.renameInvoked (renameSrcDst envA "app").1 (renameSrcDst envA "app").2 ∈
      (run Build.new cfgA envA).2 ∧
    (run Build.new cfgA { envA with renameOk := fun _ _ => false }).1 =
      .error .renameError :=
  ⟨(C9_rename_product_name.1 Build.new cfgA envA "app" (by decide) rfl).1,
   (C9_rename_product_name.1 Build.new cfgA envA "app" (by decide) rfl).2,
   C9_rename_product_name.2.2.2.2 Build.new cfgA
     { envA with renameOk := fun _ _ => false } "app"
     rfl rfl rfl rfl rfl rfl rfl rfl rfl⟩

/-- C10: when `bundle.active` is false the entire bundling block — bundler
invocation, updater signing, signed-path report — is skipped, regardless of
the updater flag and public key, because it is all nested inside the
bundling-active branch. -/
theorem C10_bundle_inactive :
    ∀ b cfg env, cfg.tauri.bundle.active = false →
      countKind EKind.bundler (run b cfg env).2 = 0 ∧
      countKind EKind.signer (run b cfg env).2 = 0 ∧
      countKind EKind.report (run b cfg env).2 = 0 := by
  intro b cfg env h
  have hb := @bundleStage_inactive b cfg env h
  have key : ∀ k, k ≠ EKind.lockA → k ≠ EKind.lockR → k ≠ EKind.hook →
      k ≠ EKind.compiler → k ≠ EKind.rename →
      countKind k (run b cfg env).2 = 0 := by
    intro k k1 k2 k3 k4 k5
    rcases countKind_run_cases k k1 k2 b cfg env with hc | hc
    · exact hc
    · rw [hc]
      rcases countKind_runLocked_cases k b cfg env k3 k4 k5 with hc2 | hc2
      · exact hc2
      · rw [hc2, hb]
        rfl
  exact ⟨key EKind.bundler (by simp) (by simp) (by simp) (by simp) (by simp),
         key EKind.signer (by simp) (by simp) (by simp) (by simp) (by simp),
         key EKind.report (by simp) (by simp) (by simp) (by simp) (by simp)⟩

/-- C10 witness: the theorem applied at a configuration with bundling off
but the updater flag on and a public key configured. -/
theorem C10_bundle_inactive_witness :
    countKind EKind.bundler
      (run Build.new
        { cfgA with
          tauri := { bundle := { active := false },
                     updater := { active := true, pubkey := some "PUBKEY" } } }
        envA).2 = 0 ∧
    countKind EKind.signer
      (run Build.new
        { cfgA with
          tauri := { bundle := { active := false },
                     updater := { active := true, pubkey := some "PUBKEY" } } }
        envA).2 = 0 ∧
    countKind EKind.report
      (run Build.new
        { cfgA with
          tauri := { bundle := { active := false },
                     updater := { active := true, pubkey := some "PUBKEY" } } }
        envA).2 = 0 :=
  C10_bundle_inactive Build.new
    { cfgA with
      tauri := { bundle := { active := false },
                 updater := { active := true, pubkey := some "PUBKEY" } } }
    envA rfl

end TauriBuild
